import Mathlib

/-!
Verification of the version-resolution logic of `update.py` (docker-crate).

The Python script is shallowly embedded: pure helpers become Lean functions,
Python `int` is modelled as `Int`, raised exceptions (`ValueError`,
`KeyError`, `URLError`, `TemplateNotFound`) become `Option`/`Except` error
values, and the ambient world (HTTP HEAD/GET, the versions.json document,
`os.path.exists`, the Jinja template loader, the clock) is an explicit
environment record `Env` passed to every effectful function.
-/

/-! ## Model of Python `int(str)` (base 10) and `str(int)` -/

/-- Decimal digit test, as used by Python `int()` for base-10 literals. -/
def isPyDigit (c : Char) : Bool :=
  decide (48 ≤ c.toNat ∧ c.toNat ≤ 57)

/-- ASCII whitespace stripped by Python `int()` around a numeric literal
(Python also strips some unicode spaces; only ASCII ones are modelled,
which is exhaustive for the version strings handled here). -/
def isPyWs (c : Char) : Bool :=
  decide (c = ' ' ∨ c = '\t' ∨ c = '\n' ∨ c = '\r' ∨ c = '\x0B' ∨ c = '\x0C')

/-- Numeric value of a decimal digit character. -/
def digitVal (c : Char) : Nat := c.toNat - 48

/-- Decimal digit character for a value below ten (as produced by
Python `str` on an `int`). -/
def digitChar : Nat → Char
  | 0 => '0'
  | 1 => '1'
  | 2 => '2'
  | 3 => '3'
  | 4 => '4'
  | 5 => '5'
  | 6 => '6'
  | 7 => '7'
  | 8 => '8'
  | 9 => '9'
  | _ => '?'

/-- Strip leading and trailing ASCII whitespace, as Python `int()` does. -/
def stripWs (cs : List Char) : List Char :=
  ((cs.dropWhile isPyWs).reverse.dropWhile isPyWs).reverse

/-- Tail of a Python base-10 digit run after its first digit: digits with
single underscores allowed only between two digits (PEP 515). -/
def digitsTail : List Char → Option (List Char)
  | [] => some []
  | [c] => if isPyDigit c then some [c] else none
  | c :: c2 :: rest =>
    if isPyDigit c then (digitsTail (c2 :: rest)).map (fun ds => c :: ds)
    else if c = '_' then
      if isPyDigit c2 then (digitsTail rest).map (fun ds => c2 :: ds) else none
    else none

/-- A full Python base-10 digit run: nonempty, starts with a digit,
underscores only between digits.  Returns the digits with underscores
removed. -/
def pyDigits : List Char → Option (List Char)
  | [] => none
  | c :: rest =>
    if isPyDigit c then (digitsTail rest).map (fun ds => c :: ds) else none

/-- Value of a big-endian decimal digit string. -/
def digitsVal (ds : List Char) : Nat :=
  ds.foldl (fun a c => 10 * a + digitVal c) 0

/-- A Python base-10 integer literal with its whitespace already
stripped: optional single sign, then a digit run. -/
def pySignedDigits : List Char → Option Int
  | [] => none
  | c :: rest =>
    if c = '-' then (pyDigits rest).map (fun ds => -((digitsVal ds : Nat) : Int))
    else if c = '+' then (pyDigits rest).map (fun ds => ((digitsVal ds : Nat) : Int))
    else (pyDigits (c :: rest)).map (fun ds => ((digitsVal ds : Nat) : Int))

/-- Model of Python `int(s)`: strip whitespace, optional single sign,
then a digit run; `none` models the raised `ValueError`. -/
def pyIntOfChars (cs : List Char) : Option Int :=
  pySignedDigits (stripWs cs)

/-- Little-endian decimal digits of `n` (empty for zero), with an explicit
structural fuel so that the definition evaluates by kernel reduction. -/
def natDigitsRevFuel : Nat → Nat → List Char
  | 0, _ => []
  | fuel + 1, n => if n = 0 then [] else digitChar (n % 10) :: natDigitsRevFuel fuel (n / 10)

/-- Model of Python `str` on a non-negative `int`. -/
def natRepr (n : Nat) : List Char :=
  if n = 0 then ['0'] else (natDigitsRevFuel n n).reverse

/-- Model of Python `str` on an `int`: minus sign for negatives. -/
def intRepr (i : Int) : List Char :=
  if i < 0 then '-' :: natRepr i.natAbs else natRepr i.toNat

/-- `intRepr` packaged as a `String`. -/
def intReprStr (i : Int) : String := ⟨intRepr i⟩

/-! ## Model of Python `str.split('.')` -/

/-- Prepend a character to the first chunk of a split result. -/
def consHead (c : Char) : List (List Char) → List (List Char)
  | [] => [[c]]
  | p :: ps => (c :: p) :: ps

/-- `s.split('.')` with no split limit. -/
def splitDot : List Char → List (List Char)
  | [] => [[]]
  | c :: rest =>
    if c = '.' then [] :: splitDot rest else consHead c (splitDot rest)

/-- `s.split('.', maxsplit=fuel)`: at most `fuel` splits are performed,
the remainder (dots included) forms the last chunk. -/
def splitDotMax : Nat → List Char → List (List Char)
  | _, [] => [[]]
  | 0, cs => [cs]
  | fuel + 1, c :: rest =>
    if c = '.' then [] :: splitDotMax fuel rest
    else consHead c (splitDotMax (fuel + 1) rest)

/-- Joining chunks back with a dot (inverse of the split functions). -/
def joinDots : List (List Char) → List Char
  | [] => []
  | [x] => x
  | x :: y :: rest => x ++ '.' :: joinDots (y :: rest)

/-! ## The `Version` named tuple (update.py lines 18-28) -/

/-- `class Version(NamedTuple)`: fields `major`, `minor`, `hotfix`, all
Python `int` (unbounded, possibly negative). -/
structure Version where
  major : Int
  minor : Int
  hotfix : Int
deriving DecidableEq

/-- `Version.parse`: `Version(*map(int, s.split('.', maxsplit=2)))`.
`none` models the raised exception (`ValueError` from `int()` when a chunk
is not an integer literal, `TypeError` from the constructor when fewer than
three chunks result; the spec calls both FormatError). -/
def Version.parse (s : String) : Option Version :=
  match splitDotMax 2 s.data with
  | [sx, sy, sz] =>
    (pyIntOfChars sx).bind fun a =>
      (pyIntOfChars sy).bind fun b =>
        (pyIntOfChars sz).map fun c => ⟨a, b, c⟩
  | _ => none

/-- `Version.__str__`: `f'{self.major}.{self.minor}.{self.hotfix}'`. -/
def Version.toStr (v : Version) : String :=
  ⟨intRepr v.major ++ '.' :: (intRepr v.minor ++ '.' :: intRepr v.hotfix)⟩

/-- Whether a string splits (full split on `'.'`) into exactly three
chunks, each accepted by Python `int()` — the spec's well-formedness
condition on version strings. -/
def splitsIntoThreeInts (s : String) : Bool :=
  (splitDot s.data).length == 3 && (splitDot s.data).all (fun chunk => (pyIntOfChars chunk).isSome)

/-- Canonical `"major.minor.hotfix"` rendering of three natural numbers. -/
def natVersionChars (a b c : Nat) : List Char :=
  natRepr a ++ '.' :: (natRepr b ++ '.' :: natRepr c)

/-- A valid `"major.minor.hotfix"` string: the dot-joined decimal
rendering of three non-negative integers (the spec's string form
`"{major}.{minor}.{hotfix}"`). -/
def isCanonicalVersionString (s : String) : Prop :=
  ∃ a b c : Nat, s.data = natVersionChars a b c

/-! ## The effectful world -/

/-- Outcome of `urlopen(Request(url, method='HEAD'))`: success, or a
raised `URLError` (transport-level failure, HTTP error statuses
included). -/
inductive HeadOutcome
  | success
  | failure (reason : String)
deriving DecidableEq

/-- Error values modelling the exceptions the script can raise. -/
inductive Err
  | notFound (msg : String)
  | fetchError
  | keyError
  | formatError
  | templateNotFound
deriving DecidableEq

/-- Values bound into the template at render time (update.py lines 94-101). -/
structure Bindings where
  CRATE_VERSION : Version
  CRASH_VERSION : Version
  JDK_VERSION : String
  JDK_URL : String
  JDK_SHA256 : String
  BUILD_TIMESTAMP : String

/-- The ambient world of the script: HTTP HEAD and GET, the parsed JSON
document of the versions endpoint (an association list of string fields;
`none` models a transport or JSON parse failure), `os.path.exists`, the
Jinja template loader (`none` models `TemplateNotFound`), and the clock. -/
structure Env where
  urlopen_head : String → HeadOutcome
  urlopen_get : String → Option String
  get_json : String → Option (List (String × String))
  path_exists : String → Bool
  get_template : String → Option (Bindings → String)
  utcnow : String

/-! ## The script's operations (update.py lines 12-101) -/

/-- `JDK_URLS` (lines 12-15): static dict from JDK version to download URL. -/
def JDK_URLS (v : Version) : Option String :=
  if v = ⟨12, 0, 1⟩ then
    some "https://download.java.net/java/GA/jdk12.0.1/69cfe15208a647278a19ef0990eea691/12/GPL/openjdk-12.0.1_linux-x64_bin.tar.gz"
  else if v = ⟨11, 0, 1⟩ then
    some "https://download.java.net/java/GA/jdk11/13/GPL/openjdk-11.0.1_linux-x64_bin.tar.gz"
  else none

/-- `url_exists` (lines 46-51): HEAD request; `True` on success, `False`
when `URLError` is caught. -/
def url_exists (env : Env) (url : String) : Bool :=
  match env.urlopen_head url with
  | HeadOutcome.success => true
  | HeadOutcome.failure _ => false

/-- `latest_crash` (lines 31-34): GET versions.json, parse it, read the
`'crash'` field, parse it as a `Version`. -/
def latest_crash (env : Env) : Except Err Version :=
  match env.get_json "https://crate.io/versions.json" with
  | none => Except.error Err.fetchError
  | some d =>
    match List.lookup "crash" d with
    | none => Except.error Err.keyError
    | some s =>
      match Version.parse s with
      | none => Except.error Err.formatError
      | some v => Except.ok v

/-- `jdk_url_and_sha` (lines 37-43): table lookup, then GET of the
`.sha256` sibling of the URL. -/
def jdk_url_and_sha (env : Env) (jdk_version : Version) : Except Err (String × String) :=
  match JDK_URLS jdk_version with
  | none =>
    Except.error (Err.notFound ("No URL for JDK version " ++ jdk_version.toStr ++ " found."))
  | some url =>
    match env.urlopen_get (url ++ ".sha256") with
    | none => Except.error Err.fetchError
    | some sha256 => Except.ok (url, sha256)

/-- `ensure_existing_crash` (lines 54-61): `None` (falsy) falls back to
`latest_crash()`; an explicit version must have an existing standalone
artifact. -/
def ensure_existing_crash (env : Env) : Option Version → Except Err Version
  | none => latest_crash env
  | some crash_version =>
    let url := "https://cdn.crate.io/downloads/releases/crash_standalone_" ++ crash_version.toStr
    if url_exists env url then Except.ok crash_version
    else Except.error (Err.notFound ("No release found for crash " ++ crash_version.toStr))

/-- `ensure_existing_cratedb` (lines 64-69). -/
def ensure_existing_cratedb (env : Env) (cratedb_version : Version) : Except Err Version :=
  let url := "https://cdn.crate.io/downloads/releases/crate-" ++ cratedb_version.toStr ++ ".tar.gz"
  if url_exists env url then Except.ok cratedb_version
  else Except.error (Err.notFound ("No release found for CrateDB " ++ cratedb_version.toStr))

/-- The candidate template name `f'Dockerfile_{v.major}.{v.minor}.j2'`
(line 74). -/
def versioned_template_name (v : Version) : String :=
  "Dockerfile_" ++ intReprStr v.major ++ "." ++ intReprStr v.minor ++ ".j2"

/-- `find_template_for_version` (lines 72-75). -/
def find_template_for_version (env : Env) (cratedb_version : Version) : String :=
  if env.path_exists (versioned_template_name cratedb_version) then
    versioned_template_name cratedb_version
  else "Dockerfile.j2"

/-- Line 87: `Version(12, 0, 1) if cratedb_version.major >= 4 else Version(11, 0, 1)`. -/
def jdk_version_default (cratedb_version : Version) : Version :=
  if 4 ≤ cratedb_version.major then ⟨12, 0, 1⟩ else ⟨11, 0, 1⟩

/-- Line 88: `args.jdk_version or jdk_version_default` (a `Version` named
tuple is a nonempty tuple, hence always truthy, so only `None` falls
through to the default). -/
def resolve_jdk_version (arg : Option Version) (cratedb_version : Version) : Version :=
  arg.getD (jdk_version_default cratedb_version)

/-- Line 90: `args.template or find_template_for_version(cratedb_version)`
(Python string truthiness: the empty string also falls through). -/
def select_template (arg : Option String) (env : Env) (cratedb_version : Version) : String :=
  match arg with
  | none => find_template_for_version env cratedb_version
  | some t => if t = "" then find_template_for_version env cratedb_version else t

/-- Parsed command-line arguments (lines 79-84); the version options are
already parsed with `Version.parse` by argparse. -/
structure Args where
  cratedb_version : Version
  crash_version : Option Version
  jdk_version : Option Version
  template : Option String

/-- The script's `main` after argument parsing (lines 86-101; the name
`main` is reserved in Lean, hence `update_main`), with each raised
exception modelled as an `Except.error` short-circuit, in the evaluation
order of the Python source (the template is loaded before the keyword
arguments of `render` are evaluated; lines 95-96 re-run the two
`ensure_existing_*` calls). -/
def update_main (env : Env) (args : Args) : Except Err String :=
  match ensure_existing_cratedb env args.cratedb_version with
  | Except.error e => Except.error e
  | Except.ok cratedb_version =>
    let jdk_version := resolve_jdk_version args.jdk_version cratedb_version
    match jdk_url_and_sha env jdk_version with
    | Except.error e => Except.error e
    | Except.ok (jdk_url, jdk_sha256) =>
      let template := select_template args.template env cratedb_version
      match env.get_template template with
      | none => Except.error Err.templateNotFound
      | some render =>
        match ensure_existing_cratedb env args.cratedb_version with
        | Except.error e => Except.error e
        | Except.ok crate_v =>
          match ensure_existing_crash env args.crash_version with
          | Except.error e => Except.error e
          | Except.ok crash_v =>
            Except.ok (render
              { CRATE_VERSION := crate_v
                CRASH_VERSION := crash_v
                JDK_VERSION := jdk_version.toStr
                JDK_URL := jdk_url
                JDK_SHA256 := jdk_sha256
                BUILD_TIMESTAMP := env.utcnow })

/-! ## Helper definitions for the proofs -/

/-- Value of a little-endian decimal digit list. -/
def valRev : List Char → Nat
  | [] => 0
  | c :: cs => digitVal c + 10 * valRev cs

/-- A world in which every URL exists and every fetch succeeds. -/
def envAllUp : Env where
  urlopen_head := fun _ => HeadOutcome.success
  urlopen_get := fun _ => some "0123abcd"
  get_json := fun _ => some [("crate", "4.1.0"), ("crash", "0.24.0")]
  path_exists := fun _ => true
  get_template := fun _ => some (fun b => b.CRATE_VERSION.toStr)
  utcnow := "2019-01-01T00:00:00"

/-- A world in which every HEAD existence probe fails at transport level. -/
def envAllDown : Env :=
  { envAllUp with urlopen_head := fun _ => HeadOutcome.failure "connection refused" }

/-- A world whose versions.json carries both a `latest` and a `crash`
field, naming different versions. -/
def envDualField : Env :=
  { envAllUp with get_json := fun _ => some [("latest", "9.9.9"), ("crash", "1.2.3")] }

/-- A command line supplying only `--cratedb-version 4.1.0`. -/
def args410 : Args := ⟨⟨4, 1, 0⟩, none, none, none⟩

/-! ## Lemmas about the decimal representation -/

lemma digitVal_digitChar {d : Nat} (h : d < 10) : digitVal (digitChar d) = d := by
  interval_cases d <;> rfl

lemma isPyDigit_digitChar {d : Nat} (h : d < 10) : isPyDigit (digitChar d) = true := by
  interval_cases d <;> rfl

lemma mem_natDigitsRevFuel :
    ∀ fuel n c, c ∈ natDigitsRevFuel fuel n → isPyDigit c = true := by
  intro fuel
  induction fuel with
  | zero => intro n c h; simp [natDigitsRevFuel] at h
  | succ f ih =>
    intro n c h
    by_cases hn : n = 0
    · simp [natDigitsRevFuel, hn] at h
    · rw [natDigitsRevFuel, if_neg hn] at h
      rcases List.mem_cons.mp h with h1 | h2
      · subst h1; exact isPyDigit_digitChar (Nat.mod_lt _ (by norm_num))
      · exact ih _ _ h2

lemma valRev_natDigitsRevFuel :
    ∀ fuel n, n ≤ fuel → valRev (natDigitsRevFuel fuel n) = n := by
  intro fuel
  induction fuel with
  | zero => intro n h; interval_cases n; rfl
  | succ f ih =>
    intro n h
    by_cases hn : n = 0
    · simp [natDigitsRevFuel, hn, valRev]
    · have hdiv : n / 10 ≤ f := by
        have := Nat.div_lt_self (Nat.pos_of_ne_zero hn) (by norm_num : 1 < 10)
        omega
      rw [natDigitsRevFuel, if_neg hn, valRev,
        digitVal_digitChar (Nat.mod_lt _ (by norm_num)), ih _ hdiv]
      omega

lemma digitsVal_append_single (xs : List Char) (c : Char) :
    digitsVal (xs ++ [c]) = 10 * digitsVal xs + digitVal c := by
  simp [digitsVal, List.foldl_append]

lemma digitsVal_reverse : ∀ l : List Char, digitsVal l.reverse = valRev l := by
  intro l
  induction l with
  | nil => rfl
  | cons c cs ih =>
    rw [List.reverse_cons, digitsVal_append_single, ih, valRev]
    omega

lemma digitsVal_natRepr (n : Nat) : digitsVal (natRepr n) = n := by
  by_cases hn : n = 0
  · subst hn; rfl
  · rw [natRepr, if_neg hn, digitsVal_reverse, valRev_natDigitsRevFuel n n le_rfl]

lemma mem_natRepr {n : Nat} {c : Char} (h : c ∈ natRepr n) : isPyDigit c = true := by
  by_cases hn : n = 0
  · subst hn; simp [natRepr] at h; subst h; rfl
  · rw [natRepr, if_neg hn, List.mem_reverse] at h
    exact mem_natDigitsRevFuel _ _ _ h

lemma natRepr_ne_nil (n : Nat) : natRepr n ≠ [] := by
  by_cases hn : n = 0
  · subst hn; simp [natRepr]
  · rw [natRepr, if_neg hn]
    cases n with
    | zero => exact absurd rfl hn
    | succ m => simp [natDigitsRevFuel]

lemma isPyDigit_not_ws {c : Char} (h : isPyDigit c = true) : isPyWs c = false := by
  rw [isPyWs, decide_eq_false_iff_not]
  rintro (rfl | rfl | rfl | rfl | rfl | rfl) <;> exact absurd h (by decide)

lemma isPyDigit_ne {c : Char} (h : isPyDigit c = true) {d : Char}
    (hd : isPyDigit d = false) : c ≠ d := by
  rintro rfl
  rw [h] at hd
  cases hd

lemma digitsTail_of_digits :
    ∀ cs : List Char, (∀ c ∈ cs, isPyDigit c = true) → digitsTail cs = some cs := by
  intro cs
  induction cs with
  | nil => intro _; rfl
  | cons c rest ih =>
    intro h
    have hc : isPyDigit c = true := h c (List.mem_cons_self c rest)
    cases rest with
    | nil => rw [digitsTail, if_pos hc]
    | cons c2 rest2 =>
      rw [digitsTail, if_pos hc, ih (fun x hx => h x (List.mem_cons_of_mem _ hx))]
      rfl

lemma pyDigits_of_digits {cs : List Char}
    (h : ∀ c ∈ cs, isPyDigit c = true) (hne : cs ≠ []) : pyDigits cs = some cs := by
  cases cs with
  | nil => exact absurd rfl hne
  | cons c rest =>
    have hc : isPyDigit c = true := h c (List.mem_cons_self c rest)
    rw [pyDigits, if_pos hc,
      digitsTail_of_digits rest (fun x hx => h x (List.mem_cons_of_mem _ hx))]
    rfl

lemma digitsTail_mem_aux :
    ∀ N, ∀ cs : List Char, cs.length ≤ N → ∀ ds, digitsTail cs = some ds →
      ∀ c ∈ cs, isPyDigit c = true ∨ c = '_' := by
  intro N
  induction N with
  | zero =>
    intro cs hlen ds hds c hc
    rw [List.length_eq_zero.mp (Nat.le_zero.mp hlen)] at hc
    simp at hc
  | succ n ih =>
    intro cs hlen ds hds c hc
    cases cs with
    | nil => simp at hc
    | cons a rest =>
      cases rest with
      | nil =>
        by_cases h1 : isPyDigit a = true
        · rcases List.mem_cons.mp hc with rfl | hc2
          · exact Or.inl h1
          · simp at hc2
        · rw [digitsTail, if_neg h1] at hds; cases hds
      | cons a2 rest2 =>
        by_cases h1 : isPyDigit a = true
        · rw [digitsTail, if_pos h1] at hds
          rcases Option.map_eq_some'.mp hds with ⟨ds1, hds1, -⟩
          rcases List.mem_cons.mp hc with rfl | hc2
          · exact Or.inl h1
          · exact ih (a2 :: rest2) (by simp at hlen ⊢; omega) ds1 hds1 c hc2
        · rw [digitsTail, if_neg h1] at hds
          by_cases ha : a = '_'
          · rw [if_pos ha] at hds
            by_cases h2 : isPyDigit a2 = true
            · rw [if_pos h2] at hds
              rcases Option.map_eq_some'.mp hds with ⟨ds2, hds2, -⟩
              rcases List.mem_cons.mp hc with rfl | hc2
              · exact Or.inr ha
              rcases List.mem_cons.mp hc2 with rfl | hc3
              · exact Or.inl h2
              · exact ih rest2 (by simp at hlen ⊢; omega) ds2 hds2 c hc3
            · rw [if_neg h2] at hds; cases hds
          · rw [if_neg ha] at hds; cases hds

lemma pyDigits_mem {cs ds : List Char} (h : pyDigits cs = some ds) :
    ∀ c ∈ cs, isPyDigit c = true ∨ c = '_' := by
  cases cs with
  | nil => intro c hc; simp at hc
  | cons a rest =>
    intro c hc
    by_cases h1 : isPyDigit a = true
    · rw [pyDigits, if_pos h1] at h
      rcases Option.map_eq_some'.mp h with ⟨ds1, hds1, -⟩
      rcases List.mem_cons.mp hc with rfl | hc2
      · exact Or.inl h1
      · exact digitsTail_mem_aux rest.length rest le_rfl ds1 hds1 c hc2
    · rw [pyDigits, if_neg h1] at h; cases h

lemma dropWhile_eq_self_of_noWs {cs : List Char}
    (h : ∀ c ∈ cs, isPyWs c = false) : cs.dropWhile isPyWs = cs := by
  cases cs with
  | nil => rfl
  | cons a rest => simp [List.dropWhile_cons, h a (List.mem_cons_self a rest)]

lemma stripWs_eq_self {cs : List Char}
    (h : ∀ c ∈ cs, isPyWs c = false) : stripWs cs = cs := by
  rw [stripWs, dropWhile_eq_self_of_noWs h,
    dropWhile_eq_self_of_noWs (fun c hc => h c (List.mem_reverse.mp hc)),
    List.reverse_reverse]

lemma mem_dropWhile {p : Char → Bool} :
    ∀ cs : List Char, ∀ c, c ∈ cs → p c = false → c ∈ cs.dropWhile p := by
  intro cs
  induction cs with
  | nil => intro c hc; simp at hc
  | cons a rest ih =>
    intro c hc hp
    cases hpa : p a with
    | true =>
      rcases List.mem_cons.mp hc with rfl | h2
      · rw [hp] at hpa; cases hpa
      · rw [List.dropWhile_cons, hpa]
        exact ih c h2 hp
    | false =>
      rw [List.dropWhile_cons, hpa]
      exact hc

lemma mem_stripWs {cs : List Char} {c : Char}
    (hc : c ∈ cs) (hw : isPyWs c = false) : c ∈ stripWs cs := by
  rw [stripWs, List.mem_reverse]
  exact mem_dropWhile _ c (List.mem_reverse.mpr (mem_dropWhile _ c hc hw)) hw

lemma pyInt_no_dot {cs : List Char} {n : Int}
    (h : pyIntOfChars cs = some n) : '.' ∉ cs := by
  intro hdot
  have hdot' : '.' ∈ stripWs cs := mem_stripWs hdot (by decide)
  rw [pyIntOfChars] at h
  rcases hs : stripWs cs with - | ⟨c, rest⟩
  · rw [hs] at hdot'; simp at hdot'
  · rw [hs] at h hdot'
    rw [pySignedDigits] at h
    by_cases hminus : c = '-'
    · rw [if_pos hminus] at h
      rcases Option.map_eq_some'.mp h with ⟨ds, hds, -⟩
      rcases List.mem_cons.mp hdot' with hhead | h2
      · rw [← hhead] at hminus; exact absurd hminus (by decide)
      · rcases pyDigits_mem hds '.' h2 with hx | hx <;> revert hx <;> decide
    · rw [if_neg hminus] at h
      by_cases hplus : c = '+'
      · rw [if_pos hplus] at h
        rcases Option.map_eq_some'.mp h with ⟨ds, hds, -⟩
        rcases List.mem_cons.mp hdot' with hhead | h2
        · rw [← hhead] at hplus; exact absurd hplus (by decide)
        · rcases pyDigits_mem hds '.' h2 with hx | hx <;> revert hx <;> decide
      · rw [if_neg hplus] at h
        rcases Option.map_eq_some'.mp h with ⟨ds, hds, -⟩
        rcases pyDigits_mem hds '.' hdot' with hx | hx <;> revert hx <;> decide

lemma pySignedDigits_of_digits {cs : List Char}
    (h : ∀ c ∈ cs, isPyDigit c = true) (hne : cs ≠ []) :
    pySignedDigits cs = some ((digitsVal cs : Nat) : Int) := by
  cases cs with
  | nil => exact absurd rfl hne
  | cons c rest =>
    have hc : isPyDigit c = true := h c (List.mem_cons_self c rest)
    rw [pySignedDigits, if_neg (isPyDigit_ne hc (by decide)),
      if_neg (isPyDigit_ne hc (by decide)),
      pyDigits_of_digits h (by simp)]
    rfl

lemma pyInt_natRepr (n : Nat) : pyIntOfChars (natRepr n) = some (n : Int) := by
  rw [pyIntOfChars,
    stripWs_eq_self (fun c hc => isPyDigit_not_ws (mem_natRepr hc)),
    pySignedDigits_of_digits (fun c hc => mem_natRepr hc) (natRepr_ne_nil n),
    digitsVal_natRepr]

lemma pyInt_intRepr (i : Int) : pyIntOfChars (intRepr i) = some i := by
  by_cases hneg : i < 0
  · rw [intRepr, if_pos hneg]
    have hnw : ∀ c ∈ '-' :: natRepr i.natAbs, isPyWs c = false := by
      intro c hc
      rcases List.mem_cons.mp hc with rfl | h2
      · decide
      · exact isPyDigit_not_ws (mem_natRepr h2)
    rw [pyIntOfChars, stripWs_eq_self hnw, pySignedDigits, if_pos rfl,
      pyDigits_of_digits (fun c hc => mem_natRepr hc) (natRepr_ne_nil _),
      Option.map_some', digitsVal_natRepr]
    congr 1
    omega
  · rw [intRepr, if_neg hneg, pyInt_natRepr]
    congr 1
    omega

/-! ## Lemmas about splitting on dots -/

lemma consHead_cons (c : Char) (p : List Char) (ps : List (List Char)) :
    consHead c (p :: ps) = (c :: p) :: ps := rfl

lemma splitDot_ne_nil : ∀ cs, splitDot cs ≠ [] := by
  intro cs
  induction cs with
  | nil => simp [splitDot]
  | cons c rest ih =>
    rw [splitDot]
    by_cases hc : c = '.'
    · rw [if_pos hc]; simp
    · rw [if_neg hc]
      rcases hp : splitDot rest with - | ⟨p, ps⟩
      · exact absurd hp ih
      · simp [consHead]

lemma joinDots_splitDot : ∀ cs, joinDots (splitDot cs) = cs := by
  intro cs
  induction cs with
  | nil => rfl
  | cons c rest ih =>
    rw [splitDot]
    by_cases hc : c = '.'
    · rw [if_pos hc]
      rcases hp : splitDot rest with - | ⟨p, ps⟩
      · exact absurd hp (splitDot_ne_nil rest)
      · rw [hp] at ih
        rw [joinDots, ih, hc]
        rfl
    · rw [if_neg hc]
      rcases hp : splitDot rest with - | ⟨p, ps⟩
      · exact absurd hp (splitDot_ne_nil rest)
      · rw [hp] at ih
        rw [consHead_cons]
        cases ps with
        | nil =>
          rw [joinDots] at ih
          rw [joinDots, ih]
        | cons q qs =>
          rw [joinDots] at ih
          rw [joinDots, List.cons_append, ih]

lemma splitDotMax_nil : ∀ f, splitDotMax f [] = [[]] := by
  intro f; cases f <;> rfl

lemma splitDotMax_zero : ∀ cs, splitDotMax 0 cs = [cs] := by
  intro cs; cases cs <;> rfl

lemma splitDotMax_succ_cons (f : Nat) (c : Char) (rest : List Char) :
    splitDotMax (f + 1) (c :: rest) =
      if c = '.' then [] :: splitDotMax f rest
      else consHead c (splitDotMax (f + 1) rest) := rfl

lemma splitDotMax_ne_nil : ∀ f cs, splitDotMax f cs ≠ [] := by
  intro f cs
  induction cs generalizing f with
  | nil => rw [splitDotMax_nil]; simp
  | cons c rest ih =>
    cases f with
    | zero => rw [splitDotMax_zero]; simp
    | succ n =>
      rw [splitDotMax_succ_cons]
      by_cases hc : c = '.'
      · rw [if_pos hc]; simp
      · rw [if_neg hc]
        rcases hp : splitDotMax (n + 1) rest with - | ⟨p, ps⟩
        · exact absurd hp (ih (n + 1))
        · simp [consHead]

lemma joinDots_splitDotMax : ∀ f cs, joinDots (splitDotMax f cs) = cs := by
  intro f cs
  induction cs generalizing f with
  | nil => rw [splitDotMax_nil]; rfl
  | cons c rest ih =>
    cases f with
    | zero => rw [splitDotMax_zero, joinDots]
    | succ n =>
      rw [splitDotMax_succ_cons]
      by_cases hc : c = '.'
      · rw [if_pos hc]
        rcases hp : splitDotMax n rest with - | ⟨p, ps⟩
        · exact absurd hp (splitDotMax_ne_nil n rest)
        · have ih2 := ih n
          rw [hp] at ih2
          rw [joinDots, ih2, hc]
          rfl
      · rw [if_neg hc]
        rcases hp : splitDotMax (n + 1) rest with - | ⟨p, ps⟩
        · exact absurd hp (splitDotMax_ne_nil (n + 1) rest)
        · have ih2 := ih (n + 1)
          rw [hp] at ih2
          rw [consHead_cons]
          cases ps with
          | nil =>
            rw [joinDots] at ih2
            rw [joinDots, ih2]
          | cons q qs =>
            rw [joinDots] at ih2
            rw [joinDots, List.cons_append, ih2]

lemma splitDot_no_dot {xs : List Char} (h : '.' ∉ xs) : splitDot xs = [xs] := by
  induction xs with
  | nil => rfl
  | cons c rest ih =>
    have hc : ¬ c = '.' := fun e => h (List.mem_cons.mpr (Or.inl e.symm))
    have hrest : '.' ∉ rest := fun hr => h (List.mem_cons_of_mem _ hr)
    rw [splitDot, if_neg hc, ih hrest, consHead_cons]

lemma splitDot_append {xs : List Char} (rest : List Char) (h : '.' ∉ xs) :
    splitDot (xs ++ '.' :: rest) = xs :: splitDot rest := by
  induction xs with
  | nil => rw [List.nil_append, splitDot, if_pos rfl]
  | cons x xs2 ih =>
    have hx : ¬ x = '.' := fun e => h (List.mem_cons.mpr (Or.inl e.symm))
    have hxs2 : '.' ∉ xs2 := fun hr => h (List.mem_cons_of_mem _ hr)
    rw [List.cons_append, splitDot, if_neg hx, ih hxs2, consHead_cons]

lemma splitDotMax_append (f : Nat) {xs : List Char} (rest : List Char) (h : '.' ∉ xs) :
    splitDotMax (f + 1) (xs ++ '.' :: rest) = xs :: splitDotMax f rest := by
  induction xs with
  | nil => rw [List.nil_append, splitDotMax_succ_cons, if_pos rfl]
  | cons x xs2 ih =>
    have hx : ¬ x = '.' := fun e => h (List.mem_cons.mpr (Or.inl e.symm))
    have hxs2 : '.' ∉ xs2 := fun hr => h (List.mem_cons_of_mem _ hr)
    rw [List.cons_append, splitDotMax_succ_cons, if_neg hx, ih hxs2, consHead_cons]

lemma splitDotMax_two_chunks {xa xb : List Char} (xc : List Char)
    (ha : '.' ∉ xa) (hb : '.' ∉ xb) :
    splitDotMax 2 (xa ++ '.' :: (xb ++ '.' :: xc)) = [xa, xb, xc] := by
  rw [show (2 : Nat) = 1 + 1 from rfl, splitDotMax_append 1 _ ha,
    splitDotMax_append 0 _ hb, splitDotMax_zero]

/-! ## Characterization of `Version.parse` -/

lemma intRepr_no_dot (i : Int) : '.' ∉ intRepr i := by
  intro h
  rw [intRepr] at h
  by_cases hneg : i < 0
  · rw [if_pos hneg] at h
    rcases List.mem_cons.mp h with he | h2
    · exact absurd he (by decide)
    · exact absurd (mem_natRepr h2) (by decide)
  · rw [if_neg hneg] at h
    exact absurd (mem_natRepr h) (by decide)

lemma parse_some_chunks {s : String} {v : Version} (h : Version.parse s = some v) :
    ∃ x y z, splitDotMax 2 s.data = [x, y, z] ∧
      pyIntOfChars x = some v.major ∧ pyIntOfChars y = some v.minor ∧
      pyIntOfChars z = some v.hotfix := by
  rw [Version.parse] at h
  split at h
  next sx sy sz heq =>
    rcases Option.bind_eq_some.mp h with ⟨a, ha, h2⟩
    rcases Option.bind_eq_some.mp h2 with ⟨b, hb, h3⟩
    rcases Option.map_eq_some'.mp h3 with ⟨c, hc, hv⟩
    exact ⟨sx, sy, sz, heq, by rw [← hv]; exact ha, by rw [← hv]; exact hb,
      by rw [← hv]; exact hc⟩
  next => exact Option.noConfusion h

lemma parse_some_splitDot {s : String} {v : Version} (h : Version.parse s = some v) :
    ∃ x y z, splitDot s.data = [x, y, z] ∧
      pyIntOfChars x = some v.major ∧ pyIntOfChars y = some v.minor ∧
      pyIntOfChars z = some v.hotfix := by
  rcases parse_some_chunks h with ⟨x, y, z, hsplit, hx, hy, hz⟩
  have hdx : '.' ∉ x := pyInt_no_dot hx
  have hdy : '.' ∉ y := pyInt_no_dot hy
  have hdz : '.' ∉ z := pyInt_no_dot hz
  have hdata : s.data = x ++ '.' :: (y ++ '.' :: z) := by
    have hj := joinDots_splitDotMax 2 s.data
    rw [hsplit] at hj
    rw [← hj]
    rfl
  refine ⟨x, y, z, ?_, hx, hy, hz⟩
  rw [hdata, splitDot_append _ hdx, splitDot_append _ hdy, splitDot_no_dot hdz]

lemma parse_toStr (v : Version) : Version.parse v.toStr = some v := by
  have hdata : (Version.toStr v).data =
      intRepr v.major ++ '.' :: (intRepr v.minor ++ '.' :: intRepr v.hotfix) := rfl
  rw [Version.parse, hdata,
    splitDotMax_two_chunks _ (intRepr_no_dot _) (intRepr_no_dot _)]
  simp [pyInt_intRepr]

lemma parse_natVersionChars (a b c : Nat) :
    Version.parse ⟨natVersionChars a b c⟩ = some ⟨(a : Int), (b : Int), (c : Int)⟩ := by
  have hnd : ∀ n : Nat, '.' ∉ natRepr n := fun n hn => absurd (mem_natRepr hn) (by decide)
  have hdata : (String.mk (natVersionChars a b c)).data =
      natRepr a ++ '.' :: (natRepr b ++ '.' :: natRepr c) := rfl
  rw [Version.parse, hdata, splitDotMax_two_chunks _ (hnd a) (hnd b)]
  simp [pyInt_natRepr]

lemma intRepr_natCast (n : Nat) : intRepr (n : Int) = natRepr n := by
  rw [intRepr, if_neg (by omega)]
  congr 1

lemma toStr_natCast (a b c : Nat) :
    Version.toStr ⟨(a : Int), (b : Int), (c : Int)⟩ = ⟨natVersionChars a b c⟩ := by
  rw [Version.toStr]
  congr 1

/-! ## Claim theorems: the Version value -/

/-- C2: round-trip law for version values. For every `Version` value of
three integers, `parse` after `toString` returns the value itself; and
for every valid `"major.minor.hotfix"` string (the canonical dot-joined
decimal rendering of three non-negative integers), `toString` after
`parse` returns the original string. -/
theorem c2_version_roundtrip :
    (∀ v : Version, Version.parse v.toStr = some v) ∧
    (∀ s : String, isCanonicalVersionString s →
      (Version.parse s).map Version.toStr = some s) := by
  constructor
  · exact parse_toStr
  · intro s hs
    rcases hs with ⟨a, b, c, hdata⟩
    cases s with
    | mk data =>
      have hd : data = natVersionChars a b c := hdata
      subst hd
      rw [parse_natVersionChars, Option.map_some', toStr_natCast]

/-- Witness for C2 at the concrete valid string `"1.2.3"`. -/
theorem c2_version_roundtrip_witness :
    isCanonicalVersionString "1.2.3" ∧
    (Version.parse "1.2.3").map Version.toStr = some "1.2.3" :=
  ⟨⟨1, 2, 3, by decide⟩, c2_version_roundtrip.2 "1.2.3" ⟨1, 2, 3, by decide⟩⟩

/-- C3: for every input string that does not split into exactly three
dot-separated integer-parsable components, `Version.parse` fails (the
returned `none` models the raised FormatError) rather than returning a
`Version` value. -/
theorem c3_parse_rejects_malformed :
    ∀ s : String, splitsIntoThreeInts s = false → Version.parse s = none := by
  intro s hbad
  cases hp : Version.parse s with
  | none => rfl
  | some v =>
    exfalso
    rcases parse_some_splitDot hp with ⟨x, y, z, hsplit, hx, hy, hz⟩
    rw [splitsIntoThreeInts, hsplit] at hbad
    simp [hx, hy, hz] at hbad

/-- Witness for C3 at the concrete malformed string `"1.2"`. -/
theorem c3_parse_rejects_malformed_witness :
    splitsIntoThreeInts "1.2" = false ∧ Version.parse "1.2" = none :=
  ⟨rfl, c3_parse_rejects_malformed "1.2" rfl⟩

/-- C4 counterexample: `parse` accepts negative components, so a parsed
`Version` need not have non-negative components: `"1.-2.3"` parses to a
value whose `minor` component is negative. -/
theorem c4_counterexample_negative_component :
    Version.parse "1.-2.3" = some ⟨1, -2, 3⟩ ∧ ((⟨1, -2, 3⟩ : Version)).minor < 0 :=
  ⟨rfl, by decide⟩

/-- C4 (amended): every `Version` value produced by `parse` has all three
components present — they are exactly the Python `int` values of the
three dot-separated chunks of the input — but the components may be any
integers, negative ones included. -/
theorem c4_parse_components :
    ∀ (s : String) (v : Version), Version.parse s = some v →
      (splitDot s.data).map pyIntOfChars = [some v.major, some v.minor, some v.hotfix] := by
  intro s v h
  rcases parse_some_splitDot h with ⟨x, y, z, hsplit, hx, hy, hz⟩
  rw [hsplit]
  simp [hx, hy, hz]

/-- Witness for C4 (amended) at the concrete input `"4.1.0"`. -/
theorem c4_parse_components_witness :
    Version.parse "4.1.0" = some ⟨4, 1, 0⟩ ∧
    (splitDot "4.1.0".data).map pyIntOfChars = [some (4 : Int), some 1, some 0] :=
  ⟨rfl, c4_parse_components "4.1.0" ⟨4, 1, 0⟩ rfl⟩

/-! ## Claim theorems: resolution pipeline -/

/-- C1: with no explicit JDK version, the resolved Java version is
`(12, 0, 1)` when the database major version is at least 4 and
`(11, 0, 1)` otherwise; a caller-supplied JDK version is used
unchanged instead of the default. -/
theorem c1_jdk_default_resolution :
    ∀ db : Version,
      (4 ≤ db.major → resolve_jdk_version none db = ⟨12, 0, 1⟩) ∧
      (db.major < 4 → resolve_jdk_version none db = ⟨11, 0, 1⟩) ∧
      (∀ j : Version, resolve_jdk_version (some j) db = j) := by
  intro db
  refine ⟨?_, ?_, fun j => rfl⟩
  · intro h
    simp [resolve_jdk_version, jdk_version_default, if_pos h]
  · intro h
    simp [resolve_jdk_version, jdk_version_default, if_neg (by omega : ¬ 4 ≤ db.major)]

/-- Witness for C1 at database versions 4.1.0 and 3.3.2 and explicit JDK
version 9.0.0. -/
theorem c1_jdk_default_resolution_witness :
    (4 ≤ (⟨4, 1, 0⟩ : Version).major ∧ resolve_jdk_version none ⟨4, 1, 0⟩ = ⟨12, 0, 1⟩) ∧
    ((⟨3, 3, 2⟩ : Version).major < 4 ∧ resolve_jdk_version none ⟨3, 3, 2⟩ = ⟨11, 0, 1⟩) ∧
    resolve_jdk_version (some ⟨9, 0, 0⟩) ⟨4, 1, 0⟩ = ⟨9, 0, 0⟩ :=
  ⟨⟨by decide, (c1_jdk_default_resolution ⟨4, 1, 0⟩).1 (by decide)⟩,
   ⟨by decide, (c1_jdk_default_resolution ⟨3, 3, 2⟩).2.1 (by decide)⟩,
   (c1_jdk_default_resolution ⟨4, 1, 0⟩).2.2 ⟨9, 0, 0⟩⟩

/-- C5: for every explicit JDK version that is not a key of the static
`JDK_URLS` table (its only keys are 12.0.1 and 11.0.1), resolution fails
with a NotFoundError whose message names the missing JDK version,
independently of the surrounding world (the static table is never
queried or extended dynamically). -/
theorem c5_unknown_jdk_not_found :
    ∀ (env : Env) (jdk : Version), jdk ≠ ⟨12, 0, 1⟩ → jdk ≠ ⟨11, 0, 1⟩ →
      jdk_url_and_sha env jdk =
        Except.error (Err.notFound ("No URL for JDK version " ++ jdk.toStr ++ " found.")) := by
  intro env jdk h12 h11
  have hl : JDK_URLS jdk = none := by rw [JDK_URLS, if_neg h12, if_neg h11]
  simp [jdk_url_and_sha, hl]

/-- Witness for C5 at the concrete absent JDK version 9.0.0. -/
theorem c5_unknown_jdk_not_found_witness :
    ((⟨9, 0, 0⟩ : Version) ≠ ⟨12, 0, 1⟩ ∧ (⟨9, 0, 0⟩ : Version) ≠ ⟨11, 0, 1⟩) ∧
    jdk_url_and_sha envAllUp ⟨9, 0, 0⟩ =
      Except.error (Err.notFound "No URL for JDK version 9.0.0 found.") :=
  ⟨⟨by decide, by decide⟩,
   c5_unknown_jdk_not_found envAllUp ⟨9, 0, 0⟩ (by decide) (by decide)⟩

/-- C6: for every database version whose release archive does not exist
(the existence probe reports false for the `crate-{version}.tar.gz` URL),
the run fails with a NotFoundError naming the missing version and never
reaches the render step: no template output is produced. -/
theorem c6_missing_cratedb_aborts :
    ∀ (env : Env) (args : Args),
      url_exists env ("https://cdn.crate.io/downloads/releases/crate-" ++
        args.cratedb_version.toStr ++ ".tar.gz") = false →
      update_main env args = Except.error (Err.notFound
        ("No release found for CrateDB " ++ args.cratedb_version.toStr)) ∧
      ∀ out : String, update_main env args ≠ Except.ok out := by
  intro env args h
  have hc : ensure_existing_cratedb env args.cratedb_version =
      Except.error (Err.notFound
        ("No release found for CrateDB " ++ args.cratedb_version.toStr)) := by
    simp [ensure_existing_cratedb, h]
  refine ⟨by simp [update_main, hc], ?_⟩
  intro out
  simp [update_main, hc]

/-- Witness for C6: a world whose HEAD probes all fail, with database
version 4.1.0 requested. -/
theorem c6_missing_cratedb_aborts_witness :
    url_exists envAllDown ("https://cdn.crate.io/downloads/releases/crate-" ++
      (⟨4, 1, 0⟩ : Version).toStr ++ ".tar.gz") = false ∧
    update_main envAllDown args410 =
      Except.error (Err.notFound "No release found for CrateDB 4.1.0") :=
  ⟨rfl, (c6_missing_cratedb_aborts envAllDown args410 rfl).1⟩

/-- C7 counterexample: with no client-tool version supplied, resolution
returns the version parsed from the `crash` field of the metadata
document, not the one parsed from its `latest` field: under
`envDualField` the document carries `latest = 9.9.9` and `crash = 1.2.3`,
and resolution returns 1.2.3. -/
theorem c7_counterexample_latest_field :
    ensure_existing_crash envDualField none = Except.ok ⟨1, 2, 3⟩ ∧
    (List.lookup "latest" [("latest", "9.9.9"), ("crash", "1.2.3")]).bind
      Version.parse = some ⟨9, 9, 9⟩ ∧
    (⟨1, 2, 3⟩ : Version) ≠ ⟨9, 9, 9⟩ := by
  refine ⟨rfl, rfl, by decide⟩

/-- C7 (amended): with no client-tool version supplied, resolution
returns exactly the version parsed from the `crash` field of the
metadata endpoint's response, performing no existence check (the result
does not depend on the HEAD probe); a supplied client-tool version is
returned unchanged when its standalone artifact URL exists and produces
a NotFoundError naming it otherwise. -/
theorem c7_crash_resolution :
    ∀ env : Env,
      (∀ (d : List (String × String)) (s : String) (v : Version),
        env.get_json "https://crate.io/versions.json" = some d →
        List.lookup "crash" d = some s → Version.parse s = some v →
        ensure_existing_crash env none = Except.ok v) ∧
      (∀ env2 : Env, env2.get_json = env.get_json →
        ensure_existing_crash env2 none = ensure_existing_crash env none) ∧
      (∀ v : Version,
        (url_exists env ("https://cdn.crate.io/downloads/releases/crash_standalone_" ++
            v.toStr) = true →
          ensure_existing_crash env (some v) = Except.ok v) ∧
        (url_exists env ("https://cdn.crate.io/downloads/releases/crash_standalone_" ++
            v.toStr) = false →
          ensure_existing_crash env (some v) =
            Except.error (Err.notFound ("No release found for crash " ++ v.toStr)))) := by
  intro env
  refine ⟨?_, ?_, ?_⟩
  · intro d s v hd hs hv
    simp [ensure_existing_crash, latest_crash, hd, hs, hv]
  · intro env2 h2
    simp [ensure_existing_crash, latest_crash, h2]
  · intro v
    constructor
    · intro h; simp [ensure_existing_crash, h]
    · intro h; simp [ensure_existing_crash, h]

/-- Witness for C7 (amended): under `envAllUp` the metadata document maps
`crash` to `0.24.0`, and an explicitly supplied existing version 0.23.1
is returned unchanged. -/
theorem c7_crash_resolution_witness :
    ensure_existing_crash envAllUp none = Except.ok ⟨0, 24, 0⟩ ∧
    ensure_existing_crash envAllUp (some ⟨0, 23, 1⟩) = Except.ok ⟨0, 23, 1⟩ :=
  ⟨(c7_crash_resolution envAllUp).1 [("crate", "4.1.0"), ("crash", "0.24.0")]
      "0.24.0" ⟨0, 24, 0⟩ rfl rfl rfl,
   ((c7_crash_resolution envAllUp).2.2 ⟨0, 23, 1⟩).1 rfl⟩

/-- C8 counterexample: a caller-supplied template name is not always
used: the explicitly supplied empty template name is discarded (Python
string truthiness) and versioned-template selection runs instead. -/
theorem c8_counterexample_empty_template :
    select_template (some "") envAllUp ⟨4, 1, 0⟩ = "Dockerfile_4.1.j2" ∧
    "Dockerfile_4.1.j2" ≠ "" :=
  ⟨rfl, by decide⟩

/-- C8 (amended): when the versioned candidate file
`Dockerfile_{major}.{minor}.j2` exists it is selected, otherwise the
generic `Dockerfile.j2` is selected; a caller-supplied non-empty template
name short-circuits both cases (a supplied empty name falls through to
automatic selection). -/
theorem c8_template_selection :
    ∀ (env : Env) (v : Version),
      (env.path_exists (versioned_template_name v) = true →
        select_template none env v = versioned_template_name v) ∧
      (env.path_exists (versioned_template_name v) = false →
        select_template none env v = "Dockerfile.j2") ∧
      (∀ t : String, t ≠ "" → select_template (some t) env v = t) := by
  intro env v
  refine ⟨?_, ?_, ?_⟩
  · intro h; simp [select_template, find_template_for_version, h]
  · intro h; simp [select_template, find_template_for_version, h]
  · intro t ht; simp [select_template, ht]

/-- Witness for C8 (amended) at database version 4.1.0 in a world where
the versioned template file exists, and at the explicit non-empty
template name `custom.j2`. -/
theorem c8_template_selection_witness :
    (envAllUp.path_exists (versioned_template_name ⟨4, 1, 0⟩) = true ∧
      select_template none envAllUp ⟨4, 1, 0⟩ = versioned_template_name ⟨4, 1, 0⟩) ∧
    select_template (some "custom.j2") envAllUp ⟨4, 1, 0⟩ = "custom.j2" :=
  ⟨⟨rfl, (c8_template_selection envAllUp ⟨4, 1, 0⟩).1 rfl⟩,
   (c8_template_selection envAllUp ⟨4, 1, 0⟩).2.2 "custom.j2" (by decide)⟩

/-- C9: the existence probe is total over transport outcomes: for every
URL it returns true exactly when the HEAD request succeeds, and returns
false (rather than propagating an error) on every transport-level
failure. -/
theorem c9_url_exists_total :
    ∀ (env : Env) (url : String),
      (url_exists env url = true ↔ env.urlopen_head url = HeadOutcome.success) ∧
      (∀ r : String, env.urlopen_head url = HeadOutcome.failure r →
        url_exists env url = false) := by
  intro env url
  constructor
  · cases h : env.urlopen_head url with
    | success => simp [url_exists, h]
    | failure r => simp [url_exists, h]
  · intro r h
    simp [url_exists, h]

/-- Witness for C9 at a concrete URL in a world whose probes succeed and
a world whose probes fail. -/
theorem c9_url_exists_total_witness :
    (url_exists envAllUp "https://example.test" = true ↔
      envAllUp.urlopen_head "https://example.test" = HeadOutcome.success) ∧
    url_exists envAllDown "https://example.test" = false :=
  ⟨(c9_url_exists_total envAllUp "https://example.test").1,
   (c9_url_exists_total envAllDown "https://example.test").2 "connection refused" rfl⟩

lemma jdk_url_and_sha_known_not_notFound (env : Env) (v : Version) (url : String)
    (h : JDK_URLS v = some url) :
    ∀ msg : String, jdk_url_and_sha env v ≠ Except.error (Err.notFound msg) := by
  intro msg hcontra
  simp only [jdk_url_and_sha, h] at hcontra
  rcases hg : env.urlopen_get (url ++ ".sha256") with - | sha <;>
    simp [hg] at hcontra

/-- C10: both hardcoded default JDK versions 12.0.1 and 11.0.1 are keys
of the static `JDK_URLS` table, so with no explicit JDK version supplied
the table lookup cannot fail: for every database version and every
world, the resolution of the defaulted JDK version never produces a
NotFoundError. -/
theorem c10_default_jdk_in_table :
    ∀ (env : Env) (db : Version),
      (∃ url : String, JDK_URLS (jdk_version_default db) = some url) ∧
      (∀ msg : String,
        jdk_url_and_sha env (resolve_jdk_version none db) ≠
          Except.error (Err.notFound msg)) := by
  intro env db
  have hsome : ∃ url : String, JDK_URLS (jdk_version_default db) = some url := by
    rw [jdk_version_default]
    by_cases h : 4 ≤ db.major
    · rw [if_pos h]
      exact ⟨_, by rw [JDK_URLS, if_pos rfl]⟩
    · rw [if_neg h]
      exact ⟨_, by rw [JDK_URLS, if_neg (by decide), if_pos rfl]⟩
  refine ⟨hsome, ?_⟩
  rcases hsome with ⟨url, hurl⟩
  exact jdk_url_and_sha_known_not_notFound env _ url hurl

/-- Witness for C10 at database version 4.1.0. -/
theorem c10_default_jdk_in_table_witness :
    JDK_URLS (jdk_version_default ⟨4, 1, 0⟩) = some
      "https://download.java.net/java/GA/jdk12.0.1/69cfe15208a647278a19ef0990eea691/12/GPL/openjdk-12.0.1_linux-x64_bin.tar.gz" ∧
    jdk_url_and_sha envAllUp (resolve_jdk_version none ⟨4, 1, 0⟩) ≠
      Except.error (Err.notFound "missing") :=
  ⟨rfl, (c10_default_jdk_in_table envAllUp ⟨4, 1, 0⟩).2 "missing"⟩
